import Mathlib

/-!
Shallow embedding of the cart store of the shopping repository
(src/unnamed/part_000 and src/shopping_zoleta/App.tsx; the cart logic in
both files is identical).

The cart is an ordered list of `CartItem` values.  The store operations
`addToCart`, `removeFromCart`, `updateQuantity`, `clearCart` mutate the
array held in React state; value-wise each call produces a new list, which
is what the definitions below compute.  `cart.find` in the source returns
the first element matching the predicate and the code then mutates that
element in place, so the embedding updates the first match only
(`updateFirst`).  TypeScript numbers are modelled as `Int`: quantities and
prices in this program only ever take integer values, and the claims
quantify over negative quantities, so a signed type is required.
-/

/-- `interface CartItem` from the source (id, name, price, quantity).
The second variant of the file adds display-only fields (imageUrl,
description) that no cart operation reads or writes; they are omitted. -/
structure CartItem where
  id : String
  name : String
  price : Int
  quantity : Int
  deriving DecidableEq, Repr

/-- Replace the first element satisfying `p` by its image under `f`,
leaving everything else in place.  This is the value-level effect of
`const x = cart.find(...); x.field = ...; setCart([...cart])`. -/
def updateFirst (p : CartItem → Bool) (f : CartItem → CartItem) : List CartItem → List CartItem
  | [] => []
  | x :: xs => if p x then f x :: xs else x :: updateFirst p f xs

/-- `addToCart` (src/unnamed/part_000 lines 44-52): if an item with the
same id exists, increment the quantity of that (first) item; otherwise
append a copy of the argument with quantity set to 1. -/
def addToCart (cart : List CartItem) (product : CartItem) : List CartItem :=
  match cart.find? (fun item => item.id == product.id) with
  | some _ =>
      updateFirst (fun item => item.id == product.id)
        (fun item => { item with quantity := item.quantity + 1 }) cart
  | none => cart ++ [{ product with quantity := 1 }]

/-- `removeFromCart` (lines 54-56): keep the items whose id differs. -/
def removeFromCart (cart : List CartItem) (id : String) : List CartItem :=
  cart.filter (fun item => item.id != id)

/-- `updateQuantity` (lines 58-64): if an item with the id exists, set
the quantity of that (first) item to the argument, unchanged otherwise.
Note the source stores the argument verbatim, with no clamping. -/
def updateQuantity (cart : List CartItem) (id : String) (quantity : Int) : List CartItem :=
  match cart.find? (fun item => item.id == id) with
  | some _ =>
      updateFirst (fun item => item.id == id)
        (fun item => { item with quantity := quantity }) cart
  | none => cart

/-- `clearCart` (lines 66-68): `setCart([])`. -/
def clearCart (_cart : List CartItem) : List CartItem := []

/-- The total computed by CheckoutScreen (line 190):
`cart.reduce((sum, item) => sum + item.price * item.quantity, 0)`. -/
def total (cart : List CartItem) : Int :=
  cart.foldl (fun sum item => sum + item.price * item.quantity) 0

/-- The clamped value `newQuantity > 0 ? newQuantity : 1` that
`handleQuantityChange` (CartScreen, lines 129-135) passes to
`updateQuantity`; `increase = true` models action increase,
`increase = false` models action decrease. -/
def clampedNewQuantity (quantity : Int) (increase : Bool) : Int :=
  let newQuantity := if increase then quantity + 1 else quantity - 1
  if newQuantity > 0 then newQuantity else 1

/-- `handleQuantityChange` (CartScreen, lines 129-135): find the item,
and when present call `updateQuantity` with the clamped new quantity. -/
def handleQuantityChange (cart : List CartItem) (id : String) (increase : Bool) :
    List CartItem :=
  match cart.find? (fun item => item.id == id) with
  | some product => updateQuantity cart id (clampedNewQuantity product.quantity increase)
  | none => cart

/-- One user-triggered store mutation, for reachability statements. -/
inductive CartAction where
  | add (product : CartItem)
  | remove (id : String)
  | update (id : String) (quantity : Int)
  | clear
  deriving DecidableEq, Repr

/-- Apply one store operation. -/
def applyAction (cart : List CartItem) : CartAction → List CartItem
  | CartAction.add p => addToCart cart p
  | CartAction.remove i => removeFromCart cart i
  | CartAction.update i q => updateQuantity cart i q
  | CartAction.clear => clearCart cart

/-- Run a sequence of store operations from a starting cart. -/
def runActions (cart : List CartItem) (as : List CartAction) : List CartItem :=
  as.foldl applyAction cart

/-- Fold `addToCart` over a list of products. -/
def addAll (cart : List CartItem) (ps : List CartItem) : List CartItem :=
  ps.foldl addToCart cart

/-! ## Helper lemmas about `updateFirst` -/

theorem updateFirst_map_eq {g : CartItem → β} {p : CartItem → Bool} {f : CartItem → CartItem}
    (hf : ∀ a, g (f a) = g a) :
    ∀ l : List CartItem, (updateFirst p f l).map g = l.map g := by
  intro l
  induction l with
  | nil => rfl
  | cons x xs ih =>
      by_cases hx : p x
      · simp [updateFirst, hx, hf]
      · simp [updateFirst, hx, ih]

theorem find?_updateFirst {p : CartItem → Bool} {f : CartItem → CartItem}
    (hf : ∀ a, p a = true → p (f a) = true) :
    ∀ l : List CartItem, (updateFirst p f l).find? p = (l.find? p).map f := by
  intro l
  induction l with
  | nil => rfl
  | cons x xs ih =>
      by_cases hx : p x
      · simp [updateFirst, hx, List.find?_cons_of_pos, hf x hx]
      · have h1 : updateFirst p f (x :: xs) = x :: updateFirst p f xs := by
          simp [updateFirst, hx]
        rw [h1, List.find?_cons_of_neg _ hx, List.find?_cons_of_neg _ hx, ih]

theorem mem_updateFirst {p : CartItem → Bool} {f : CartItem → CartItem} {x : CartItem} :
    ∀ {l : List CartItem}, x ∈ updateFirst p f l → x ∈ l ∨ ∃ y ∈ l, x = f y := by
  intro l
  induction l with
  | nil => intro h; exact absurd h (by simp [updateFirst])
  | cons a as ih =>
      intro h
      by_cases ha : p a
      · have h1 : updateFirst p f (a :: as) = f a :: as := by
          simp [updateFirst, ha]
        rw [h1, List.mem_cons] at h
        rcases h with h | h
        · exact Or.inr ⟨a, List.mem_cons_self a as, h⟩
        · exact Or.inl (List.mem_cons_of_mem a h)
      · have h1 : updateFirst p f (a :: as) = a :: updateFirst p f as := by
          simp [updateFirst, ha]
        rw [h1, List.mem_cons] at h
        rcases h with h | h
        · exact Or.inl (h ▸ List.mem_cons_self a as)
        · rcases ih h with h2 | ⟨y, hy, hxy⟩
          · exact Or.inl (List.mem_cons_of_mem a h2)
          · exact Or.inr ⟨y, List.mem_cons_of_mem a hy, hxy⟩

theorem foldl_add_map (f : CartItem → Int) :
    ∀ (l : List CartItem) (a : Int), l.foldl (fun s x => s + f x) a = a + (l.map f).sum := by
  intro l
  induction l with
  | nil => intro a; simp
  | cons x xs ih =>
      intro a
      simp only [List.foldl_cons, List.map_cons, List.sum_cons, ih]
      ring

/-! ## Claim theorems -/

/-- Claim C4: for every cart and id, removeFromCart deletes every LineItem
with the matching id, leaves every item with a different id in the cart,
and when no item with that id is present it returns the cart unchanged. -/
theorem removeFromCart_spec (cart : List CartItem) (id : String) :
    (∀ x ∈ removeFromCart cart id, x.id ≠ id) ∧
    ((∀ x ∈ cart, x.id ≠ id) → removeFromCart cart id = cart) ∧
    (∀ x ∈ cart, x.id ≠ id → x ∈ removeFromCart cart id) := by
  unfold removeFromCart
  refine ⟨?_, ?_, ?_⟩
  · intro x hx
    simpa [bne_iff_ne] using List.of_mem_filter hx
  · intro h
    exact List.filter_eq_self.mpr (fun a ha => by simpa [bne_iff_ne] using h a ha)
  · intro x hx hne
    exact List.mem_filter.mpr ⟨hx, by simpa [bne_iff_ne] using hne⟩

/-- Witness for removeFromCart_spec: removing an absent id is a no-op. -/
theorem removeFromCart_spec_witness :
    removeFromCart [CartItem.mk "a" "A" 5 2] "b" = [CartItem.mk "a" "A" 5 2] :=
  (removeFromCart_spec [CartItem.mk "a" "A" 5 2] "b").2.1 (by decide)

/-- Claim C5: the total computed at Checkout is the sum over all LineItems
of price times quantity, and the total of the empty cart is 0. -/
theorem total_spec (cart : List CartItem) :
    total cart = (cart.map (fun item => item.price * item.quantity)).sum ∧
    total ([] : List CartItem) = 0 := by
  constructor
  · simpa [total] using foldl_add_map (fun item => item.price * item.quantity) cart 0
  · rfl

/-- Claim C6: updateQuantity never removes an item: the list of ids in the
cart, order included, is unchanged for every id and every quantity,
including quantities below 1. -/
theorem updateQuantity_preserves_ids (cart : List CartItem) (id : String) (q : Int) :
    (updateQuantity cart id q).map CartItem.id = cart.map CartItem.id := by
  unfold updateQuantity
  cases h : cart.find? (fun item => item.id == id) with
  | none => rfl
  | some x =>
      exact @updateFirst_map_eq String CartItem.id (fun item => item.id == id)
        (fun item => { item with quantity := q }) (fun a => rfl) cart

/-- Claim C9: clearCart empties every cart; in particular the sequence
add A, add B, remove the id of A, clear ends in the empty cart. -/
theorem clearCart_spec (cart : List CartItem) (A B : CartItem) :
    clearCart cart = [] ∧
    clearCart (removeFromCart (addToCart (addToCart [] A) B) A.id) = [] :=
  ⟨rfl, rfl⟩

/-- Claim C10: adding a fresh item and then removing its id restores the
original cart exactly. -/
theorem add_then_remove (cart : List CartItem) (product : CartItem)
    (h : ∀ x ∈ cart, x.id ≠ product.id) :
    removeFromCart (addToCart cart product) product.id = cart := by
  have hfind : cart.find? (fun item => item.id == product.id) = none :=
    List.find?_eq_none.mpr (fun x hx => by simpa using h x hx)
  unfold addToCart
  rw [hfind]
  unfold removeFromCart
  rw [List.filter_append]
  have h1 : cart.filter (fun item => item.id != product.id) = cart :=
    List.filter_eq_self.mpr (fun x hx => by simpa [bne_iff_ne] using h x hx)
  have h2 : ([{ product with quantity := 1 }] : List CartItem).filter
      (fun item => item.id != product.id) = [] := by simp
  rw [h1, h2, List.append_nil]

/-- Witness for add_then_remove at a concrete cart and product. -/
theorem add_then_remove_witness :
    removeFromCart (addToCart [CartItem.mk "b" "B" 1 1] (CartItem.mk "a" "A" 2 3)) "a" =
      [CartItem.mk "b" "B" 1 1] :=
  add_then_remove [CartItem.mk "b" "B" 1 1] (CartItem.mk "a" "A" 2 3) (by decide)

/-! ## Equation lemmas for the store operations -/

theorem addToCart_of_found {cart : List CartItem} {product y : CartItem}
    (h : cart.find? (fun item => item.id == product.id) = some y) :
    addToCart cart product =
      updateFirst (fun item => item.id == product.id)
        (fun item => { item with quantity := item.quantity + 1 }) cart := by
  unfold addToCart
  rw [h]

theorem addToCart_of_not_found {cart : List CartItem} {product : CartItem}
    (h : cart.find? (fun item => item.id == product.id) = none) :
    addToCart cart product = cart ++ [{ product with quantity := 1 }] := by
  unfold addToCart
  rw [h]

theorem updateQuantity_of_found {cart : List CartItem} {id : String} {q : Int} {y : CartItem}
    (h : cart.find? (fun item => item.id == id) = some y) :
    updateQuantity cart id q =
      updateFirst (fun item => item.id == id)
        (fun item => { item with quantity := q }) cart := by
  unfold updateQuantity
  rw [h]

theorem updateQuantity_of_not_found {cart : List CartItem} {id : String} {q : Int}
    (h : cart.find? (fun item => item.id == id) = none) :
    updateQuantity cart id q = cart := by
  unfold updateQuantity
  rw [h]

theorem find?_some_of_mem {cart : List CartItem} {i : String} {y : CartItem}
    (hy : y ∈ cart) (hyid : y.id = i) :
    ∃ z, cart.find? (fun item => item.id == i) = some z := by
  cases hf : cart.find? (fun item => item.id == i) with
  | none => exact absurd (List.find?_eq_none.mp hf y hy) (by simp [hyid])
  | some z => exact ⟨z, rfl⟩

theorem find?_append_of_none {p : CartItem → Bool} {l1 : List CartItem} (l2 : List CartItem)
    (h : ∀ x ∈ l1, ¬ p x) : (l1 ++ l2).find? p = l2.find? p := by
  induction l1 with
  | nil => rfl
  | cons x xs ih =>
      rw [List.cons_append, List.find?_cons_of_neg _ (h x (List.mem_cons_self x xs))]
      exact ih (fun y hy => h y (List.mem_cons_of_mem x hy))

/-- Claim C1 counterexample: updateQuantity with quantity 0 on a present id
stores 0, not max(0, 1) = 1 as the claim predicts. -/
theorem updateQuantity_clamp_cex :
    updateQuantity [CartItem.mk "a" "A" 10 2] "a" 0 = [CartItem.mk "a" "A" 10 0] ∧
    (0 : Int) ≠ max 0 1 := by
  refine ⟨by decide, by decide⟩

/-- Claim C1 amended: if an item with the id exists, updateQuantity stores
the argument quantity verbatim, with no clamping; for q ≤ 0 the stored
quantity is q, not 1.  The no-op on an absent id is unchanged. -/
theorem updateQuantity_sets_exact (cart : List CartItem) (id : String) (q : Int)
    (h : (cart.find? (fun item => item.id == id)).isSome) :
    ((updateQuantity cart id q).find? (fun item => item.id == id)).map CartItem.quantity =
      some q := by
  obtain ⟨x, hx⟩ := Option.isSome_iff_exists.mp h
  rw [updateQuantity_of_found hx,
    @find?_updateFirst (fun item => item.id == id)
      (fun item => { item with quantity := q }) (fun a ha => ha) cart, hx]
  rfl

/-- Witness for updateQuantity_sets_exact at a concrete cart. -/
theorem updateQuantity_sets_exact_witness :
    ((updateQuantity [CartItem.mk "a" "A" 10 2] "a" 7).find?
        (fun item => item.id == "a")).map CartItem.quantity = some 7 :=
  updateQuantity_sets_exact [CartItem.mk "a" "A" 10 2] "a" 7 (by decide)

/-- Claim C8 counterexample: with a stored quantity of -1 the increase
action passes 1 to updateQuantity, not quantity + 1 = 0, so the handler
result differs from the one the claim predicts. -/
theorem handleQuantityChange_cex :
    handleQuantityChange [CartItem.mk "a" "A" 10 (-1)] "a" true =
      [CartItem.mk "a" "A" 10 1] ∧
    updateQuantity [CartItem.mk "a" "A" 10 (-1)] "a" ((-1) + 1) =
      [CartItem.mk "a" "A" 10 0] := by
  refine ⟨by decide, by decide⟩

/-- Claim C8 amended: when the id is present with stored quantity q, the
Cart screen handler calls updateQuantity with max(q - 1, 1) on decrease
and max(q + 1, 1) on increase; either way the value passed is at least 1
(and equals q + 1 on increase whenever q ≥ 0, hence for every stored
quantity satisfying the intended invariant q ≥ 1). -/
theorem handleQuantityChange_clamps (cart : List CartItem) (id : String) (b : Bool)
    (x : CartItem) (h : cart.find? (fun item => item.id == id) = some x) :
    handleQuantityChange cart id b =
      updateQuantity cart id (clampedNewQuantity x.quantity b) ∧
    clampedNewQuantity x.quantity false = max (x.quantity - 1) 1 ∧
    clampedNewQuantity x.quantity true = max (x.quantity + 1) 1 ∧
    1 ≤ clampedNewQuantity x.quantity b := by
  refine ⟨?_, ?_, ?_, ?_⟩
  · unfold handleQuantityChange
    rw [h]
  · show (if x.quantity - 1 > 0 then x.quantity - 1 else 1) = max (x.quantity - 1) 1
    split <;> omega
  · show (if x.quantity + 1 > 0 then x.quantity + 1 else 1) = max (x.quantity + 1) 1
    split <;> omega
  · cases b
    · show 1 ≤ if x.quantity - 1 > 0 then x.quantity - 1 else 1
      split <;> omega
    · show 1 ≤ if x.quantity + 1 > 0 then x.quantity + 1 else 1
      split <;> omega

/-- Witness for handleQuantityChange_clamps at a concrete cart. -/
theorem handleQuantityChange_clamps_witness :
    handleQuantityChange [CartItem.mk "a" "A" 10 5] "a" false =
      updateQuantity [CartItem.mk "a" "A" 10 5] "a" (clampedNewQuantity 5 false) ∧
    clampedNewQuantity 5 false = max (5 - 1) 1 ∧
    clampedNewQuantity 5 true = max (5 + 1) 1 ∧
    (1 : Int) ≤ clampedNewQuantity 5 false :=
  handleQuantityChange_clamps [CartItem.mk "a" "A" 10 5] "a" false
    (CartItem.mk "a" "A" 10 5) (by decide)

/-- Claim C2 counterexample: from the empty cart, add an item and then
call updateQuantity with 0; the resulting cart holds an item whose
quantity is 0, below 1. -/
theorem cart_invariant_cex :
    ¬ (∀ x ∈ runActions [] [CartAction.add (CartItem.mk "a" "A" 10 5),
        CartAction.update "a" 0], 1 ≤ x.quantity) := by
  decide

/-- An action whose update argument is at least 1; the Cart screen only
ever issues such updates (see clampedNewQuantity). -/
def goodAction (a : CartAction) : Bool :=
  match a with
  | CartAction.update _ q => decide (1 ≤ q)
  | _ => true

theorem applyAction_preserves_quantities {cart : List CartItem} {a : CartAction}
    (hc : ∀ x ∈ cart, 1 ≤ x.quantity) (ha : goodAction a = true) :
    ∀ x ∈ applyAction cart a, 1 ≤ x.quantity := by
  cases a with
  | add p =>
      intro x hx
      cases hfind : cart.find? (fun item => item.id == p.id) with
      | some y =>
          rw [show applyAction cart (CartAction.add p) = addToCart cart p from rfl,
            addToCart_of_found hfind] at hx
          rcases mem_updateFirst hx with h2 | ⟨y2, hy2, rfl⟩
          · exact hc x h2
          · have := hc y2 hy2
            show 1 ≤ y2.quantity + 1
            omega
      | none =>
          rw [show applyAction cart (CartAction.add p) = addToCart cart p from rfl,
            addToCart_of_not_found hfind] at hx
          rcases List.mem_append.mp hx with h2 | h2
          · exact hc x h2
          · rw [List.mem_singleton] at h2
            subst h2
            show (1 : Int) ≤ 1
            omega
  | remove i =>
      intro x hx
      exact hc x (List.mem_of_mem_filter hx)
  | update i q =>
      intro x hx
      have hq : 1 ≤ q := by simpa [goodAction] using ha
      cases hfind : cart.find? (fun item => item.id == i) with
      | some y =>
          rw [show applyAction cart (CartAction.update i q) = updateQuantity cart i q from rfl,
            updateQuantity_of_found hfind] at hx
          rcases mem_updateFirst hx with h2 | ⟨y2, hy2, rfl⟩
          · exact hc x h2
          · exact hq
      | none =>
          rw [show applyAction cart (CartAction.update i q) = updateQuantity cart i q from rfl,
            updateQuantity_of_not_found hfind] at hx
          exact hc x hx
  | clear =>
      intro x hx
      exact absurd hx (by simp [applyAction, clearCart])

/-- Claim C2 amended: every LineItem has quantity at least 1 in every cart
reachable from the empty cart by addToCart, removeFromCart, clearCart and
updateQuantity calls whose quantity argument is at least 1 (the only
updates the screens ever issue); updateQuantity with an arbitrary
quantity can break the invariant, as the counterexample shows. -/
theorem runActions_quantities (as : List CartAction) (h : ∀ a ∈ as, goodAction a = true) :
    ∀ x ∈ runActions [] as, 1 ≤ x.quantity := by
  have main : ∀ (as2 : List CartAction) (cart : List CartItem),
      (∀ a ∈ as2, goodAction a = true) → (∀ x ∈ cart, 1 ≤ x.quantity) →
      ∀ x ∈ runActions cart as2, 1 ≤ x.quantity := by
    intro as2
    induction as2 with
    | nil => intro cart _ hc; exact hc
    | cons a rest ih =>
        intro cart hgood hc
        have h1 := applyAction_preserves_quantities hc (hgood a (List.mem_cons_self a rest))
        exact ih (applyAction cart a) (fun b hb => hgood b (List.mem_cons_of_mem a hb)) h1
  exact main as [] h (by simp)

/-- Witness for runActions_quantities at a concrete action sequence and a
concrete member of the resulting cart. -/
theorem runActions_quantities_witness :
    1 ≤ (CartItem.mk "b" "B" 3 1).quantity :=
  runActions_quantities [CartAction.add (CartItem.mk "a" "A" 10 5),
      CartAction.update "a" 2, CartAction.clear,
      CartAction.add (CartItem.mk "b" "B" 3 1)] (by decide)
    (CartItem.mk "b" "B" 3 1) (by decide)

theorem addAll_quantity_aux :
    ∀ (ps : List CartItem) (cart : List CartItem) (i : String) (q : Int),
      (∀ p ∈ ps, p.id = i) →
      (cart.find? (fun item => item.id == i)).map CartItem.quantity = some q →
      ((addAll cart ps).find? (fun item => item.id == i)).map CartItem.quantity =
        some (q + ps.length) := by
  intro ps
  induction ps with
  | nil =>
      intro cart i q _ h
      simpa using h
  | cons p rest ih =>
      intro cart i q hids h
      have hpid : p.id = i := hids p (List.mem_cons_self p rest)
      obtain ⟨y, hy⟩ : ∃ y, cart.find? (fun item => item.id == i) = some y := by
        cases hf : cart.find? (fun item => item.id == i) with
        | none => rw [hf] at h; simp at h
        | some y => exact ⟨y, rfl⟩
      rw [hy] at h
      have hyq : y.quantity = q := by simpa using h
      have hfind2 : cart.find? (fun item => item.id == p.id) = some y := by
        rw [hpid]
        exact hy
      have hstep : ((addToCart cart p).find? (fun item => item.id == i)).map CartItem.quantity
          = some (q + 1) := by
        rw [addToCart_of_found hfind2, hpid,
          @find?_updateFirst (fun item => item.id == i)
            (fun item => { item with quantity := item.quantity + 1 }) (fun a ha => ha) cart,
          hy]
        simp [hyq]
      have hrun : addAll cart (p :: rest) = addAll (addToCart cart p) rest := rfl
      rw [hrun,
        ih (addToCart cart p) i (q + 1) (fun b hb => hids b (List.mem_cons_of_mem p hb)) hstep]
      congr 1
      simp only [List.length_cons]
      push_cast
      ring

/-- Claim C3: starting from a cart with no item of id i, any nonempty
sequence of addToCart calls whose arguments all carry id i (their other
fields arbitrary) leaves the cart with an item of id i whose quantity is
the number of calls. -/
theorem addAll_quantity (cart : List CartItem) (i : String) (ps : List CartItem)
    (hc : ∀ x ∈ cart, x.id ≠ i) (hps : ∀ p ∈ ps, p.id = i) (hn : 1 ≤ ps.length) :
    ∃ x, (addAll cart ps).find? (fun item => item.id == i) = some x ∧
      x.id = i ∧ x.quantity = ps.length := by
  match ps, hn with
  | p :: rest, _ =>
    have hpid : p.id = i := hps p (List.mem_cons_self p rest)
    have hfind : cart.find? (fun item => item.id == p.id) = none :=
      List.find?_eq_none.mpr (fun x hx => by simpa [hpid] using hc x hx)
    have hp1 : (({ p with quantity := 1 } : CartItem).id == i) = true := by
      simp [hpid]
    have hfirst : ((addToCart cart p).find? (fun item => item.id == i)).map CartItem.quantity
        = some 1 := by
      rw [addToCart_of_not_found hfind,
        find?_append_of_none [{ p with quantity := 1 }]
          (fun x hx => by simpa using hc x hx)]
      simp [List.find?, hp1]
    have hmain := addAll_quantity_aux rest (addToCart cart p) i 1
      (fun b hb => hps b (List.mem_cons_of_mem p hb)) hfirst
    obtain ⟨x, hx⟩ : ∃ x, (addAll (addToCart cart p) rest).find?
        (fun item => item.id == i) = some x := by
      cases hf : (addAll (addToCart cart p) rest).find? (fun item => item.id == i) with
      | none => rw [hf] at hmain; simp at hmain
      | some x => exact ⟨x, rfl⟩
    refine ⟨x, hx, ?_, ?_⟩
    · simpa using List.find?_some hx
    · rw [hx] at hmain
      have hxq : x.quantity = 1 + rest.length := by simpa using hmain
      rw [hxq]
      simp only [List.length_cons]
      push_cast
      ring

/-- Witness for addAll_quantity: two adds of id a onto a cart holding only
id b yield quantity 2 for id a. -/
theorem addAll_quantity_witness :
    ∃ x, (addAll [CartItem.mk "b" "B" 7 1]
        [CartItem.mk "a" "A" 10 5, CartItem.mk "a" "Other" 99 0]).find?
        (fun item => item.id == "a") = some x ∧
      x.id = "a" ∧
      x.quantity = ([CartItem.mk "a" "A" 10 5, CartItem.mk "a" "Other" 99 0] :
        List CartItem).length :=
  addAll_quantity [CartItem.mk "b" "B" 7 1] "a"
    [CartItem.mk "a" "A" 10 5, CartItem.mk "a" "Other" 99 0]
    (by decide) (by decide) (by decide)

theorem updateFirst_eq_set {p : CartItem → Bool} {f : CartItem → CartItem} :
    ∀ {l : List CartItem} {y : CartItem}, l.find? p = some y →
      ∃ j : Nat, ∃ hj : j < l.length, l.get ⟨j, hj⟩ = y ∧
        updateFirst p f l = l.set j (f y) := by
  intro l
  induction l with
  | nil => intro y h; simp at h
  | cons a as ih =>
      intro y h
      by_cases ha : p a
      · rw [List.find?_cons_of_pos _ ha] at h
        obtain rfl : a = y := by injection h
        refine ⟨0, by simp, rfl, ?_⟩
        simp [updateFirst, ha]
      · rw [List.find?_cons_of_neg _ ha] at h
        obtain ⟨j, hj, hget, heq⟩ := ih h
        refine ⟨j + 1, by simpa using Nat.succ_lt_succ hj, hget, ?_⟩
        have h1 : updateFirst p f (a :: as) = a :: updateFirst p f as := by
          simp [updateFirst, ha]
        rw [h1, heq]
        rfl

theorem addToCart_id_only {cart : List CartItem} {product p2 : CartItem}
    (hid : p2.id = product.id) (h : ∃ x ∈ cart, x.id = product.id) :
    addToCart cart p2 = addToCart cart product := by
  obtain ⟨y, hy, hyid⟩ := h
  obtain ⟨z, hz⟩ := find?_some_of_mem hy hyid
  have hz2 : cart.find? (fun item => item.id == p2.id) = some z := by
    rw [hid]
    exact hz
  rw [addToCart_of_found hz2, addToCart_of_found hz, hid]

/-- Claim C7: when an item with the id of the argument is already in the
cart, addToCart rewrites exactly one position of the cart, the first one
holding that id, replacing the item there by a copy whose quantity grew
by 1 (name and price kept); every other position is untouched, and the
result does not depend on the name, price or quantity of the argument,
only on its id. -/
theorem addToCart_existing (cart : List CartItem) (product : CartItem)
    (h : ∃ x ∈ cart, x.id = product.id) :
    ∃ j : Nat, ∃ hj : j < cart.length,
      (cart.get ⟨j, hj⟩).id = product.id ∧
      addToCart cart product =
        cart.set j { cart.get ⟨j, hj⟩ with
          quantity := (cart.get ⟨j, hj⟩).quantity + 1 } ∧
      ∀ p2 : CartItem, p2.id = product.id → addToCart cart p2 = addToCart cart product := by
  obtain ⟨y, hy, hyid⟩ := h
  obtain ⟨z, hz⟩ := find?_some_of_mem hy hyid
  obtain ⟨j, hj, hget, heq⟩ := updateFirst_eq_set hz
  refine ⟨j, hj, ?_, ?_, fun p2 hp2 => addToCart_id_only hp2 ⟨y, hy, hyid⟩⟩
  · rw [hget]
    simpa using List.find?_some hz
  · rw [addToCart_of_found hz, hget, heq]

/-- Witness for addToCart_existing: adding id a with a different name and
price onto a two item cart. -/
theorem addToCart_existing_witness :
    ∃ j : Nat, ∃ hj : j < ([CartItem.mk "a" "A" 10 2, CartItem.mk "b" "B" 3 4] :
        List CartItem).length,
      (([CartItem.mk "a" "A" 10 2, CartItem.mk "b" "B" 3 4] : List CartItem).get
        ⟨j, hj⟩).id = (CartItem.mk "a" "X" 99 50).id ∧
      addToCart [CartItem.mk "a" "A" 10 2, CartItem.mk "b" "B" 3 4]
          (CartItem.mk "a" "X" 99 50) =
        ([CartItem.mk "a" "A" 10 2, CartItem.mk "b" "B" 3 4] : List CartItem).set j
          { ([CartItem.mk "a" "A" 10 2, CartItem.mk "b" "B" 3 4] : List CartItem).get
              ⟨j, hj⟩ with
            quantity := (([CartItem.mk "a" "A" 10 2, CartItem.mk "b" "B" 3 4] :
              List CartItem).get ⟨j, hj⟩).quantity + 1 } ∧
      ∀ p2 : CartItem, p2.id = (CartItem.mk "a" "X" 99 50).id →
        addToCart [CartItem.mk "a" "A" 10 2, CartItem.mk "b" "B" 3 4] p2 =
          addToCart [CartItem.mk "a" "A" 10 2, CartItem.mk "b" "B" 3 4]
            (CartItem.mk "a" "X" 99 50) :=
  addToCart_existing [CartItem.mk "a" "A" 10 2, CartItem.mk "b" "B" 3 4]
    (CartItem.mk "a" "X" 99 50) ⟨CartItem.mk "a" "A" 10 2, by simp, rfl⟩
